import Mathlib

/-!
Shallow embedding of the automation orchestrator of the SpaceTraders UI
(`src/screens/Dashboard.tsx`, second document: `AutomationOrchestrator`).

Numbers that the TypeScript source manipulates as JS `number` and that
enter arithmetic comparisons are modelled as `ℚ` (exact rationals); pure
counters (units, retries, seconds) are `Nat`.  JS `x / 0` yields `NaN`
and every `NaN < y` comparison is `false`; the one place this matters
(the fuel-fraction test with `fuel.capacity = 0`) is modelled explicitly
by guarding the division with `capacity ≠ 0`.
-/

namespace SpaceTraders

/-- JS `String.prototype.includes` on lists of characters. -/
def listIncludes (pat : List Char) : List Char → Bool
  | [] => pat.isEmpty
  | a :: t => pat.isPrefixOf (a :: t) || listIncludes pat t

/-- JS `s.includes(pat)`. -/
def strIncludes (s pat : String) : Bool :=
  listIncludes pat.toList s.toList

/-! ## Ship snapshot (src/types/api.ts, `Ship`) -/

inductive NavStatus
  | IN_TRANSIT | IN_ORBIT | DOCKED
deriving DecidableEq, Repr

structure ShipNav where
  systemSymbol : String
  waypointSymbol : String
  status : NavStatus
deriving DecidableEq, Repr

structure CargoItem where
  symbol : String
  units : Nat
deriving DecidableEq, Repr

structure ShipCargo where
  capacity : Nat
  units : Nat
  inventory : List CargoItem
deriving DecidableEq, Repr

structure ShipFuel where
  current : Nat
  capacity : Nat
deriving DecidableEq, Repr

structure Cooldown where
  remainingSeconds : Nat
deriving DecidableEq, Repr

structure ShipMount where
  symbol : String
deriving DecidableEq, Repr

structure Ship where
  symbol : String
  nav : ShipNav
  cargo : ShipCargo
  fuel : ShipFuel
  cooldown : Option Cooldown
  mounts : List ShipMount
deriving DecidableEq, Repr

/-! ## Policy and automation state (Dashboard.tsx lines 161-204) -/

structure MiningStopConditions where
  maxCargo : Bool
  lowFuel : Bool
  creditLimit : Bool
deriving DecidableEq, Repr

structure MiningPolicy where
  autoSellWhenFull : Bool
  minFuelPercent : ℚ
  maxCredits : ℚ
  preferredMarkets : List String
  stopConditions : MiningStopConditions
deriving DecidableEq, Repr

structure TradingPolicy where
  maxBuyPriceDeviation : ℚ
  minProfitMargin : ℚ
  reserveCredits : ℚ
  maxDistance : ℚ
deriving DecidableEq, Repr

structure ContractPolicy where
  autoAccept : Bool
  priorityTypes : List String
  maxDeadlineDays : ℚ
  minReward : ℚ
deriving DecidableEq, Repr

structure AutomationPolicy where
  mining : MiningPolicy
  trading : TradingPolicy
  contract : ContractPolicy
deriving DecidableEq, Repr

inductive BehaviorKind
  | mining | trading | contract | idle
deriving DecidableEq, Repr

inductive RunStatus
  | running | paused | stopped | error
deriving DecidableEq, Repr

/-- `AutomationState`; `lastAction : Date` is modelled as epoch milliseconds. -/
structure AutomationState where
  shipSymbol : String
  behavior : BehaviorKind
  status : RunStatus
  currentTask : String
  progress : ℚ
  lastAction : Nat
  errorMessage : Option String
  policy : AutomationPolicy
deriving DecidableEq, Repr

inductive ActionType
  | navigate | dock | orbit | refuel | extract | survey | sell | buy | deliver
deriving DecidableEq, Repr

def ActionType.toStr : ActionType → String
  | .navigate => "navigate"
  | .dock => "dock"
  | .orbit => "orbit"
  | .refuel => "refuel"
  | .extract => "extract"
  | .survey => "survey"
  | .sell => "sell"
  | .buy => "buy"
  | .deliver => "deliver"

/-- The only structured payload the orchestrator ever attaches to a step
(the `deliver` steps of `planContractActions`). -/
structure DeliverPayload where
  contractId : String
  tradeSymbol : String
  units : Nat
  destinationSymbol : String
deriving DecidableEq, Repr

structure ActionStep where
  type : ActionType
  target : Option String := none
  payload : Option DeliverPayload := none
  retries : Nat
  maxRetries : Nat
deriving DecidableEq, Repr

/-! ## Gateway calls

One constructor per remote operation the orchestrator's `executeAction`
can reach through the `spaceTraders` service, plus `deliverContract`,
the contract-delivery endpoint of the gateway interface (spec §6), so
that "a delivery call is never made" is expressible. -/

inductive GatewayCall
  | navigateShip (shipSymbol waypointSymbol : String)
  | dockShip (shipSymbol : String)
  | orbitShip (shipSymbol : String)
  | refuelShip (shipSymbol : String)
  | extractResources (shipSymbol : String)
  | createSurvey (shipSymbol : String)
  | sellCargo (shipSymbol goodSymbol : String) (units : Nat)
  | getContracts
  | deliverContract (contractId tradeSymbol : String) (units : Nat)
      (destinationSymbol : String)
deriving DecidableEq, Repr

def GatewayCall.isDeliver : GatewayCall → Bool
  | .deliverContract _ _ _ _ => true
  | _ => false

/-- The `sell` handler's loop over `ship.cargo.inventory`: each item is a
`sellCargo` call; a throwing call aborts the loop (`gw c = false` models a
thrown exception, caught by `executeAction`'s `try`). -/
def sellLoop (gw : GatewayCall → Bool) (shipSymbol : String) :
    List CargoItem → Bool × List GatewayCall
  | [] => (true, [])
  | item :: rest =>
    let c := GatewayCall.sellCargo shipSymbol item.symbol item.units
    if gw c then
      let r := sellLoop gw shipSymbol rest
      (r.1, c :: r.2)
    else
      (false, [c])

/-- `executeAction` (Dashboard.tsx lines 390-453): attempts one step,
returning success together with the list of gateway calls attempted.
`gw c = true` means the remote call returned, `false` that it threw
(the surrounding `try/catch` turns a throw into `false`). -/
def executeAction (gw : GatewayCall → Bool) (ship : Ship) (action : ActionStep) :
    Bool × List GatewayCall :=
  match action.type with
  | .navigate =>
    match action.target with
    | some t =>
      if t.isEmpty then (false, [])
      else
        let c := GatewayCall.navigateShip ship.symbol t
        (gw c, [c])
    | none => (false, [])
  | .dock =>
    if ship.nav.status ≠ NavStatus.DOCKED then
      let c := GatewayCall.dockShip ship.symbol
      (gw c, [c])
    else (true, [])
  | .orbit =>
    if ship.nav.status ≠ NavStatus.IN_ORBIT then
      let c := GatewayCall.orbitShip ship.symbol
      (gw c, [c])
    else (true, [])
  | .refuel =>
    if ship.nav.status = NavStatus.DOCKED then
      let c := GatewayCall.refuelShip ship.symbol
      (gw c, [c])
    else (false, [])
  | .extract =>
    if ship.nav.status = NavStatus.IN_ORBIT then
      let c := GatewayCall.extractResources ship.symbol
      (gw c, [c])
    else (false, [])
  | .survey =>
    if ship.nav.status = NavStatus.IN_ORBIT then
      let c := GatewayCall.createSurvey ship.symbol
      (gw c, [c])
    else (false, [])
  | .sell =>
    if ship.nav.status = NavStatus.DOCKED ∧ 0 < ship.cargo.units then
      sellLoop gw ship.symbol ship.cargo.inventory
    else (false, [])
  -- `buy` and `deliver` have no case in the source switch: the
  -- `default` branch logs a warning and returns false.
  | .buy => (false, [])
  | .deliver => (false, [])

/-! ## Contracts (src/types/api.ts, `Contract`) -/

structure ContractDeliverGood where
  tradeSymbol : String
  destinationSymbol : String
  unitsRequired : Nat
  unitsFulfilled : Nat
deriving DecidableEq, Repr

structure ContractTerms where
  deliver : List ContractDeliverGood
deriving DecidableEq, Repr

structure Contract where
  id : String
  type : String
  accepted : Bool
  fulfilled : Bool
  terms : ContractTerms
deriving DecidableEq, Repr

/-! ## Behavior planners (Dashboard.tsx lines 455-598)

Each planner is the pure content of the corresponding `plan*Actions`
method: it receives the state and the queue and returns their new
values.  `planContractActions` additionally receives the result of the
`spaceTraders.getContracts()` call (`none` models a thrown fetch,
caught by the method's own `try/catch`). -/

def planSellActions (ship : Ship) (state : AutomationState)
    (queue : List ActionStep) : AutomationState × List ActionStep :=
  if ship.cargo.units = 0 then (state, queue)
  else
    let marketSymbol := ship.nav.systemSymbol ++ "-MARKETPLACE-1"
    ({ state with currentTask := "Navigating to market to sell cargo" },
      queue ++
        [{ type := .navigate, target := some marketSymbol, retries := 0, maxRetries := 3 },
         { type := .dock, retries := 0, maxRetries := 3 },
         { type := .sell, retries := 0, maxRetries := 3 }])

def planMiningActions (ship : Ship) (state : AutomationState)
    (queue : List ActionStep) : AutomationState × List ActionStep :=
  let policy := state.policy.mining
  -- `ship.cargo.units >= ship.cargo.capacity * 0.9`
  if policy.stopConditions.maxCargo ∧
      (ship.cargo.capacity : ℚ) * (9 / 10) ≤ (ship.cargo.units : ℚ) then
    if policy.autoSellWhenFull then
      planSellActions ship
        { state with currentTask := "Cargo full, finding market to sell" } queue
    else
      ({ state with
          status := .paused
          currentTask := "Cargo full, automation paused" }, queue)
  -- `(ship.fuel.current / ship.fuel.capacity * 100) < policy.minFuelPercent`;
  -- capacity 0 gives NaN in JS, and NaN compares false, hence the guard.
  else if policy.stopConditions.lowFuel ∧ ship.fuel.capacity ≠ 0 ∧
      (ship.fuel.current : ℚ) / (ship.fuel.capacity : ℚ) * 100 <
        policy.minFuelPercent then
    ({ state with currentTask := "Low fuel, need to refuel" },
      queue ++
        [{ type := .dock, retries := 0, maxRetries := 3 },
         { type := .refuel, retries := 0, maxRetries := 3 },
         { type := .orbit, retries := 0, maxRetries := 3 }])
  else
    let currentWaypoint := ship.nav.waypointSymbol
    let isAtAsteroid := strIncludes currentWaypoint "ASTEROID" ||
        strIncludes currentWaypoint "ENGINEERED_ASTEROID"
    if !isAtAsteroid then
      let asteroidSymbol := ship.nav.systemSymbol ++ "-ASTEROID-1"
      ({ state with currentTask := "Navigating to mining location" },
        queue ++
          [{ type := .navigate, target := some asteroidSymbol, retries := 0, maxRetries := 3 },
           { type := .orbit, retries := 0, maxRetries := 3 }])
    else
      let queue := if ship.nav.status ≠ NavStatus.IN_ORBIT then
          queue ++ [{ type := .orbit, retries := 0, maxRetries := 3 }]
        else queue
      let state := { state with
        currentTask := "Mining resources",
        -- JS: `(units / capacity) * 100`; capacity 0 gives NaN, stored as-is;
        -- `ℚ` division-by-zero gives 0 here, a benign stand-in for NaN since
        -- `progress` never feeds a comparison.
        progress := (ship.cargo.units : ℚ) / (ship.cargo.capacity : ℚ) * 100 }
      let queue := if ship.mounts.any (fun m => strIncludes m.symbol "SURVEYOR") then
          queue ++ [{ type := .survey, retries := 0, maxRetries := 2 }]
        else queue
      (state, queue ++ [{ type := .extract, retries := 0, maxRetries := 3 }])

def planTradingActions (ship : Ship) (state : AutomationState)
    (queue : List ActionStep) : AutomationState × List ActionStep :=
  let state := { state with currentTask := "Analyzing trade opportunities" }
  if 0 < ship.cargo.units then
    planSellActions ship state queue
  else
    ({ state with currentTask := "No cargo to trade", status := .paused }, queue)

/-- The loop body of `planContractActions` over the active contract's
delivery requirements. -/
def contractDeliverFold (ship : Ship) (activeContract : Contract)
    (acc : AutomationState × List ActionStep) (d : ContractDeliverGood) :
    AutomationState × List ActionStep :=
  if d.unitsFulfilled < d.unitsRequired then
    let needed := d.unitsRequired - d.unitsFulfilled
    let availableUnits :=
      match ship.cargo.inventory.find? (fun it => it.symbol = d.tradeSymbol) with
      | some it => it.units
      | none => 0
    if 0 < availableUnits then
      (acc.1, acc.2 ++
        [{ type := .navigate, target := some d.destinationSymbol,
           retries := 0, maxRetries := 3 },
         { type := .dock, retries := 0, maxRetries := 3 },
         { type := .deliver,
           payload := some
             { contractId := activeContract.id,
               tradeSymbol := d.tradeSymbol,
               units := min needed availableUnits,
               destinationSymbol := d.destinationSymbol },
           retries := 0, maxRetries := 3 }])
    else
      ({ acc.1 with
         currentTask := "Need to acquire " ++ d.tradeSymbol ++ " for contract",
         status := .paused }, acc.2)
  else acc

def planContractActions (contractsResult : Option (List Contract)) (ship : Ship)
    (state : AutomationState) (queue : List ActionStep) :
    AutomationState × List ActionStep :=
  let state := { state with currentTask := "Checking active contracts" }
  match contractsResult with
  | none =>
    ({ state with
        status := .error
        errorMessage := some "Failed to plan contract actions" }, queue)
  | some contracts =>
    match contracts.find? (fun c => c.accepted && !c.fulfilled) with
    | none =>
      ({ state with currentTask := "No active contracts", status := .paused }, queue)
    | some activeContract =>
      let state := { state with
        currentTask := "Working on contract: " ++ activeContract.type }
      activeContract.terms.deliver.foldl (contractDeliverFold ship activeContract)
        (state, queue)

def planNextActions (contractsResult : Option (List Contract)) (ship : Ship)
    (state : AutomationState) (queue : List ActionStep) :
    AutomationState × List ActionStep :=
  match state.behavior with
  | .mining => planMiningActions ship state queue
  | .trading => planTradingActions ship state queue
  | .contract => planContractActions contractsResult ship state queue
  | .idle => (state, queue)

/-! ## The orchestrator (Dashboard.tsx lines 206-388)

The two JS `Map`s are modelled as insertion-ordered association lists:
`Map.get` is `List.lookup`, `Map.set` replaces in place or appends. -/

def mapSet {α : Type} (m : List (String × α)) (k : String) (v : α) :
    List (String × α) :=
  if m.any (fun p => p.1 = k) then
    m.map (fun p => if p.1 = k then (k, v) else p)
  else
    m ++ [(k, v)]

structure Orchestrator where
  automationStates : List (String × AutomationState)
  actionQueues : List (String × List ActionStep)
  isRunning : Bool
deriving DecidableEq, Repr

/-- `this.actionQueues.get(shipSymbol) || []` -/
def Orchestrator.queueOf (o : Orchestrator) (shipSymbol : String) : List ActionStep :=
  (o.actionQueues.lookup shipSymbol).getD []

/-- The `defaultPolicy` literal of `startAutomation`. -/
def defaultPolicy : AutomationPolicy :=
  { mining :=
      { autoSellWhenFull := true
        minFuelPercent := 10
        maxCredits := 1000000
        preferredMarkets := []
        stopConditions := { maxCargo := true, lowFuel := true, creditLimit := false } }
    trading :=
      { maxBuyPriceDeviation := 10
        minProfitMargin := 15
        reserveCredits := 100000
        maxDistance := 50 }
    contract :=
      { autoAccept := false
        priorityTypes := ["PROCUREMENT", "TRANSPORT"]
        maxDeadlineDays := 30
        minReward := 50000 } }

/-- The `Partial<AutomationPolicy>` argument of `startAutomation`: the JS
spread `{ ...defaultPolicy, ...policy }` replaces whole top-level
sections when present. -/
structure PolicyOverrides where
  mining : Option MiningPolicy := none
  trading : Option TradingPolicy := none
  contract : Option ContractPolicy := none
deriving DecidableEq, Repr

def mergePolicy (d : AutomationPolicy) (p : PolicyOverrides) : AutomationPolicy :=
  { mining := p.mining.getD d.mining
    trading := p.trading.getD d.trading
    contract := p.contract.getD d.contract }

/-- `startAutomation`; `now` stands for `new Date()` in epoch ms. -/
def startAutomation (o : Orchestrator) (shipSymbol : String)
    (behavior : BehaviorKind) (policy : PolicyOverrides) (now : Nat) :
    Orchestrator :=
  let state : AutomationState :=
    { shipSymbol := shipSymbol
      behavior := behavior
      status := .running
      currentTask := "Initializing automation"
      progress := 0
      lastAction := now
      errorMessage := none
      policy := mergePolicy defaultPolicy policy }
  { o with
      automationStates := mapSet o.automationStates shipSymbol state
      actionQueues := mapSet o.actionQueues shipSymbol []
      isRunning := true }

def stopAutomation (o : Orchestrator) (shipSymbol : String) : Orchestrator :=
  match o.automationStates.lookup shipSymbol with
  | some state =>
    let state := { state with status := RunStatus.stopped, currentTask := "Stopped" }
    { o with automationStates := mapSet o.automationStates shipSymbol state }
  | none => o

def pauseAutomation (o : Orchestrator) (shipSymbol : String) : Orchestrator :=
  match o.automationStates.lookup shipSymbol with
  | some state =>
    let state := { state with status := RunStatus.paused, currentTask := "Paused" }
    { o with automationStates := mapSet o.automationStates shipSymbol state }
  | none => o

def resumeAutomation (o : Orchestrator) (shipSymbol : String) : Orchestrator :=
  match o.automationStates.lookup shipSymbol with
  | some state =>
    if state.status = RunStatus.paused then
      let state := { state with status := RunStatus.running, currentTask := "Resuming" }
      { o with automationStates := mapSet o.automationStates shipSymbol state }
    else o
  | none => o

/-! ### Persistence (Dashboard.tsx lines 217-236)

`saveStates` writes `Array.from(this.automationStates.values())` as JSON;
the action queues are not written.  `loadStates` (run by the constructor)
rebuilds the state map from that array and leaves `actionQueues` at its
initial empty value.  JSON keeps every record field exactly (`lastAction`
serializes as an ISO-8601 string holding the full millisecond value), so
the stored array is modelled as the list of `AutomationState` values. -/

def saveStates (o : Orchestrator) : List AutomationState :=
  o.automationStates.map Prod.snd

def loadStates (stored : List AutomationState) : Orchestrator :=
  { automationStates := stored.map (fun s => (s.shipSymbol, s))
    actionQueues := []
    isRunning := false }

/-! ### Per-ship tick processing (Dashboard.tsx lines 354-388) -/

def failMsg (a : ActionStep) : String :=
  "Action " ++ a.type.toStr ++ " failed after " ++ toString a.maxRetries ++ " retries"

def cooldownMsg (secs : Nat) : String :=
  "Waiting for cooldown (" ++ toString secs ++ "s)"

/-- `if (ship.cooldown && ship.cooldown.remainingSeconds > 0)` -/
def onCooldown (ship : Ship) : Bool :=
  match ship.cooldown with
  | some c => 0 < c.remainingSeconds
  | none => false

/-- The queue-execution block (lines 366-380) in isolation: execute the
head step if any; pop on success, bump `retries` on failure and drop the
step (recording `errorMessage`) once `retries` reaches `maxRetries`. -/
def runQueueStep (gw : GatewayCall → Bool) (ship : Ship) (now : Nat)
    (state : AutomationState) (queue : List ActionStep) :
    AutomationState × List ActionStep :=
  match queue with
  | [] => (state, [])
  | action :: rest =>
    if (executeAction gw ship action).1 then
      ({ state with lastAction := now }, rest)
    else
      let action := { action with retries := action.retries + 1 }
      if action.maxRetries ≤ action.retries then
        ({ state with errorMessage := some (failMsg action) }, rest)
      else
        (state, action :: rest)

/-- `processShipAutomation`, transcribed whole: cooldown early-return,
then the queue-execution block, then `if (queue.length === 0)` planning. -/
def processShipAutomation (gw : GatewayCall → Bool)
    (contractsResult : Option (List Contract)) (ship : Ship) (now : Nat)
    (state : AutomationState) (queue : List ActionStep) :
    AutomationState × List ActionStep :=
  match ship.cooldown with
  | some c =>
    if 0 < c.remainingSeconds then
      ({ state with currentTask := cooldownMsg c.remainingSeconds }, queue)
    else
      processAfterCooldown gw contractsResult ship now state queue
  | none => processAfterCooldown gw contractsResult ship now state queue
where
  processAfterCooldown (gw : GatewayCall → Bool)
      (contractsResult : Option (List Contract)) (ship : Ship) (now : Nat)
      (state : AutomationState) (queue : List ActionStep) :
      AutomationState × List ActionStep :=
    let r :=
      match queue with
      | [] => (state, ([] : List ActionStep))
      | action :: rest =>
        if (executeAction gw ship action).1 then
          ({ state with lastAction := now }, rest)
        else
          let action := { action with retries := action.retries + 1 }
          if action.maxRetries ≤ action.retries then
            ({ state with errorMessage := some (failMsg action) }, rest)
          else
            (state, action :: rest)
    if r.2.isEmpty then planNextActions contractsResult ship r.1 r.2
    else r

/-- Iterated ticks of the queue-execution block for one ship whose
snapshot and clock are held fixed. -/
def iterQueue (gw : GatewayCall → Bool) (ship : Ship) (now : Nat) :
    Nat → AutomationState × List ActionStep → AutomationState × List ActionStep
  | 0, sq => sq
  | n + 1, sq => iterQueue gw ship now n (runQueueStep gw ship now sq.1 sq.2)

/-- Every step still in a queue has spent at most its retry budget. -/
def QueueBound (q : List ActionStep) : Prop :=
  ∀ s ∈ q, s.retries ≤ s.maxRetries

/-! ## Concrete fixtures for witnesses and counterexamples -/

def gwOk : GatewayCall → Bool := fun _ => true

def stepOf (t : ActionType) : ActionStep :=
  { type := t, retries := 0, maxRetries := 3 }

/-- Scenario A ship: full fuel, empty cargo, at a non-asteroid waypoint. -/
def shipA : Ship :=
  { symbol := "SHIP-1"
    nav := { systemSymbol := "X1-TEST", waypointSymbol := "X1-TEST-A1", status := .IN_ORBIT }
    cargo := { capacity := 40, units := 0, inventory := [] }
    fuel := { current := 100, capacity := 100 }
    cooldown := none
    mounts := [] }

/-- The same ship docked (for precondition counterexamples). -/
def shipDocked : Ship :=
  { shipA with nav := { shipA.nav with status := NavStatus.DOCKED } }

/-- The same ship at an asteroid waypoint, in orbit. -/
def shipAtAsteroid : Ship :=
  { shipA with nav := { shipA.nav with waypointSymbol := "X1-TEST-ASTEROID-1" } }

/-- A running mining state under the default policy. -/
def stateMining : AutomationState :=
  { shipSymbol := "SHIP-1"
    behavior := .mining
    status := .running
    currentTask := "Initializing automation"
    progress := 0
    lastAction := 0
    errorMessage := none
    policy := defaultPolicy }

/-! ## Association-list lemmas for the JS `Map` model -/

theorem lookup_of_any_false {α : Type} (m : List (String × α)) (k : String)
    (h : m.any (fun p => p.1 = k) = false) : m.lookup k = none := by
  induction m with
  | nil => rfl
  | cons p t ih =>
    simp only [List.any_cons, Bool.or_eq_false_iff, decide_eq_false_iff_not] at h
    obtain ⟨h1, h2⟩ := h
    have hb : (k == p.1) = false := beq_eq_false_iff_ne.mpr fun he => h1 he.symm
    simp only [List.lookup, hb]
    exact ih h2

theorem lookup_append {α : Type} (m l : List (String × α)) (k : String)
    (h : m.lookup k = none) : (m ++ l).lookup k = l.lookup k := by
  induction m with
  | nil => rfl
  | cons p t ih =>
    cases hk : (k == p.1) with
    | true =>
      simp only [List.lookup, hk] at h
      exact absurd h (Option.some_ne_none _)
    | false =>
      simp only [List.cons_append, List.lookup, hk] at h ⊢
      exact ih h

theorem lookup_mapSet {α : Type} (m : List (String × α)) (k : String) (v : α) :
    (mapSet m k v).lookup k = some v := by
  unfold mapSet
  cases ha : m.any (fun p => p.1 = k) with
  | false =>
    simp only [Bool.false_eq_true, if_false]
    rw [lookup_append m _ k (lookup_of_any_false m k ha)]
    simp [List.lookup]
  | true =>
    simp only [if_true]
    induction m with
    | nil => simp at ha
    | cons p t ih =>
      simp only [List.any_cons, Bool.or_eq_true, decide_eq_true_eq] at ha
      by_cases hp : p.1 = k
      · rw [List.map_cons, if_pos hp]
        simp [List.lookup]
      · rw [List.map_cons, if_neg hp]
        have hb : (k == p.1) = false := beq_eq_false_iff_ne.mpr fun he => hp he.symm
        simp only [List.lookup, hb]
        have ht : t.any (fun p => p.1 = k) = true := by
          rcases ha with h | h
          · exact absurd h hp
          · exact h
        exact ih ht

/-! ## Claim theorems -/

/-- C8: for every step whose ship-state precondition is unmet (`extract`
or `survey` while not `IN_ORBIT`, `refuel` or `sell` while not `DOCKED`),
`executeAction` returns failure and attempts no gateway call. -/
theorem c8_precondition_failure_no_gateway_call (gw : GatewayCall → Bool)
    (ship : Ship) (a : ActionStep)
    (h : ((a.type = ActionType.extract ∨ a.type = ActionType.survey) ∧
            ship.nav.status ≠ NavStatus.IN_ORBIT) ∨
         ((a.type = ActionType.refuel ∨ a.type = ActionType.sell) ∧
            ship.nav.status ≠ NavStatus.DOCKED)) :
    executeAction gw ship a = (false, []) := by
  rcases h with ⟨ht | ht, hs⟩ | ⟨ht | ht, hs⟩ <;> simp [executeAction, ht, hs]

/-- Witness for C8: an `extract` step attempted while the ship is docked
fails with no remote call. -/
theorem c8_precondition_failure_no_gateway_call_witness :
    executeAction gwOk shipDocked (stepOf ActionType.extract) = (false, []) :=
  c8_precondition_failure_no_gateway_call gwOk shipDocked (stepOf ActionType.extract)
    (Or.inl ⟨Or.inl rfl, by decide⟩)

/-- C4: when executing the head step fails, its retry counter is
incremented; once the counter reaches `maxRetries` the step is dropped
and an error message recorded; and the failure path never changes
`runStatus` (in particular a running ship stays running). -/
theorem c4_retry_increment_drop_keeps_status (gw : GatewayCall → Bool)
    (ship : Ship) (now : Nat) (state : AutomationState) (a : ActionStep)
    (rest : List ActionStep)
    (hfail : (executeAction gw ship a).1 = false) :
    (a.retries + 1 < a.maxRetries →
       runQueueStep gw ship now state (a :: rest) =
         (state, { a with retries := a.retries + 1 } :: rest)) ∧
    (a.maxRetries ≤ a.retries + 1 →
       runQueueStep gw ship now state (a :: rest) =
         ({ state with errorMessage := some (failMsg a) }, rest)) ∧
    (runQueueStep gw ship now state (a :: rest)).1.status = state.status := by
  refine ⟨fun h => ?_, fun h => ?_, ?_⟩
  · simp [runQueueStep, hfail, Nat.not_le.mpr h]
  · simp [runQueueStep, hfail, h, failMsg]
  · by_cases hc : a.maxRetries ≤ a.retries + 1 <;>
      simp [runQueueStep, hfail, hc]

/-- Witness for C4: an `extract` step failing against a docked ship; at
`retries = 0` the step is retried, at `retries = 2` (`maxRetries = 3`)
it is dropped with the error recorded, the status untouched. -/
theorem c4_retry_increment_drop_keeps_status_witness :
    (runQueueStep gwOk shipDocked 7 stateMining [stepOf ActionType.extract] =
      (stateMining, [{ stepOf ActionType.extract with retries := 1 }])) ∧
    (runQueueStep gwOk shipDocked 7 stateMining
        [{ stepOf ActionType.extract with retries := 2 }] =
      ({ stateMining with
          errorMessage := some (failMsg (stepOf ActionType.extract)) }, [])) := by
  constructor
  · exact (c4_retry_increment_drop_keeps_status gwOk shipDocked 7 stateMining
      (stepOf ActionType.extract) [] (by decide)).1 (by decide)
  · exact (c4_retry_increment_drop_keeps_status gwOk shipDocked 7 stateMining
      { stepOf ActionType.extract with retries := 2 } [] (by decide)).2.1 (by decide)

/-- Every gateway call of the `sell` handler's loop is a `sellCargo`. -/
theorem sellLoop_no_deliver (gw : GatewayCall → Bool) (shipSymbol : String)
    (inv : List CargoItem) :
    ∀ c ∈ (sellLoop gw shipSymbol inv).2, c.isDeliver = false := by
  induction inv with
  | nil => intro c hc; simp [sellLoop] at hc
  | cons item rest ih =>
    intro c hc
    rw [sellLoop] at hc
    by_cases hg : gw (GatewayCall.sellCargo shipSymbol item.symbol item.units)
    · simp only [hg, if_true, List.mem_cons] at hc
      rcases hc with hc | hc
      · subst hc; rfl
      · exact ih c hc
    · simp only [hg, Bool.false_eq_true, if_false, List.mem_singleton] at hc
      subst hc; rfl

/-- As the head of a queue, a step on which `executeAction` always fails
is retried until its budget is exhausted and then dropped, recording the
failure message. -/
theorem iterQueue_drops_failing_head (gw : GatewayCall → Bool) (ship : Ship)
    (now : Nat) :
    ∀ (k : Nat) (a : ActionStep) (state : AutomationState) (rest : List ActionStep),
      (∀ rt : Nat, (executeAction gw ship { a with retries := rt }).1 = false) →
      a.retries + k = a.maxRetries → 0 < k →
      iterQueue gw ship now k (state, a :: rest) =
        ({ state with errorMessage := some (failMsg a) }, rest) := by
  intro k
  induction k with
  | zero => intro a state rest _ _ h0; exact absurd h0 (by omega)
  | succ n ih =>
    intro a state rest hfail hk _
    have hfa : (executeAction gw ship a).1 = false := hfail a.retries
    cases n with
    | zero =>
      have hle : a.maxRetries ≤ a.retries + 1 := by omega
      simp [iterQueue, runQueueStep, hfa, hle, failMsg]
    | succ m =>
      have hlt : ¬ a.maxRetries ≤ a.retries + 1 := by omega
      simp only [iterQueue, runQueueStep, hfa, Bool.false_eq_true, if_false,
        if_neg hlt]
      have h2 := ih { a with retries := a.retries + 1 } state rest
        (fun rt => hfail rt)
        (show a.retries + 1 + (m + 1) = a.maxRetries by omega)
        (Nat.succ_pos m)
      exact h2

/-- C3: `executeAction` has no handler for `deliver` or `buy` steps: it
returns `false` without any gateway call; no gateway call it ever makes
is a contract delivery; and a deliver step at the head of a queue is
retried until `maxRetries` and then dropped with the failure recorded. -/
theorem c3_deliver_buy_never_executed :
    (∀ (gw : GatewayCall → Bool) (ship : Ship) (a : ActionStep),
        a.type = ActionType.deliver ∨ a.type = ActionType.buy →
        executeAction gw ship a = (false, [])) ∧
    (∀ (gw : GatewayCall → Bool) (ship : Ship) (a : ActionStep)
        (c : GatewayCall), c ∈ (executeAction gw ship a).2 →
        c.isDeliver = false) ∧
    (∀ (gw : GatewayCall → Bool) (ship : Ship) (now k : Nat)
        (a : ActionStep) (state : AutomationState) (rest : List ActionStep),
        a.type = ActionType.deliver → a.retries + k = a.maxRetries → 0 < k →
        iterQueue gw ship now k (state, a :: rest) =
          ({ state with errorMessage := some (failMsg a) }, rest)) := by
  refine ⟨?_, ?_, ?_⟩
  · intro gw ship a h
    rcases h with ht | ht <;> simp [executeAction, ht]
  · intro gw ship a c hc
    rw [executeAction] at hc
    cases hat : a.type <;> simp only [hat] at hc
    case navigate =>
      rcases htg : a.target with _ | t <;> simp only [htg] at hc
      · simp at hc
      · by_cases he : t.isEmpty
        · simp [he] at hc
        · simp only [he, Bool.false_eq_true, if_false, List.mem_singleton] at hc
          subst hc; rfl
    case dock =>
      by_cases hs : ship.nav.status ≠ NavStatus.DOCKED
      · simp only [if_pos hs, List.mem_singleton] at hc; subst hc; rfl
      · simp [if_neg hs] at hc
    case orbit =>
      by_cases hs : ship.nav.status ≠ NavStatus.IN_ORBIT
      · simp only [if_pos hs, List.mem_singleton] at hc; subst hc; rfl
      · simp [if_neg hs] at hc
    case refuel =>
      by_cases hs : ship.nav.status = NavStatus.DOCKED
      · simp only [if_pos hs, List.mem_singleton] at hc; subst hc; rfl
      · simp [if_neg hs] at hc
    case extract =>
      by_cases hs : ship.nav.status = NavStatus.IN_ORBIT
      · simp only [if_pos hs, List.mem_singleton] at hc; subst hc; rfl
      · simp [if_neg hs] at hc
    case survey =>
      by_cases hs : ship.nav.status = NavStatus.IN_ORBIT
      · simp only [if_pos hs, List.mem_singleton] at hc; subst hc; rfl
      · simp [if_neg hs] at hc
    case sell =>
      by_cases hs : ship.nav.status = NavStatus.DOCKED ∧ 0 < ship.cargo.units
      · rw [if_pos hs] at hc
        exact sellLoop_no_deliver gw ship.symbol ship.cargo.inventory c hc
      · simp [if_neg hs] at hc
    case buy => simp at hc
    case deliver => simp at hc
  · intro gw ship now k a state rest ht hk h0
    exact iterQueue_drops_failing_head gw ship now k a state rest
      (fun rt => by simp [executeAction, ht]) hk h0

/-- Witness for C3: a concrete deliver step (as the contract planner
creates them, `retries = 0`, `maxRetries = 3`) fails with no call and is
dropped after three ticks. -/
theorem c3_deliver_buy_never_executed_witness :
    executeAction gwOk shipA (stepOf ActionType.deliver) = (false, []) ∧
    iterQueue gwOk shipA 0 3 (stateMining, [stepOf ActionType.deliver]) =
      ({ stateMining with
          errorMessage := some (failMsg (stepOf ActionType.deliver)) }, []) := by
  constructor
  · exact c3_deliver_buy_never_executed.1 gwOk shipA (stepOf ActionType.deliver)
      (Or.inl rfl)
  · exact c3_deliver_buy_never_executed.2.2 gwOk shipA 0 3
      (stepOf ActionType.deliver) stateMining [] rfl (by decide) (by decide)

/-! ### Retry-budget invariant machinery -/

theorem queueBound_append {q l : List ActionStep} (hq : QueueBound q)
    (hl : QueueBound l) : QueueBound (q ++ l) := by
  intro s hs
  rcases List.mem_append.mp hs with h | h
  · exact hq s h
  · exact hl s h

theorem queueBound_planSell (ship : Ship) (state : AutomationState)
    (q : List ActionStep) (hq : QueueBound q) :
    QueueBound (planSellActions ship state q).2 := by
  simp only [planSellActions]
  by_cases h : ship.cargo.units = 0
  · rw [if_pos h]
    exact hq
  · rw [if_neg h]
    refine queueBound_append hq ?_
    intro s hs
    simp only [List.mem_cons, List.not_mem_nil, or_false] at hs
    rcases hs with rfl | rfl | rfl <;> simp

theorem queueBound_planMining (ship : Ship) (state : AutomationState)
    (q : List ActionStep) (hq : QueueBound q) :
    QueueBound (planMiningActions ship state q).2 := by
  simp only [planMiningActions]
  by_cases h1 : state.policy.mining.stopConditions.maxCargo ∧
      (ship.cargo.capacity : ℚ) * (9 / 10) ≤ (ship.cargo.units : ℚ)
  · rw [if_pos h1]
    by_cases h2 : state.policy.mining.autoSellWhenFull
    · rw [if_pos h2]
      exact queueBound_planSell ship _ q hq
    · rw [if_neg h2]
      exact hq
  · rw [if_neg h1]
    by_cases h3 : state.policy.mining.stopConditions.lowFuel ∧
        ship.fuel.capacity ≠ 0 ∧
        (ship.fuel.current : ℚ) / (ship.fuel.capacity : ℚ) * 100 <
          state.policy.mining.minFuelPercent
    · rw [if_pos h3]
      refine queueBound_append hq ?_
      intro s hs
      simp only [List.mem_cons, List.not_mem_nil, or_false] at hs
      rcases hs with rfl | rfl | rfl <;> simp
    · rw [if_neg h3]
      by_cases h4 : (!(strIncludes ship.nav.waypointSymbol "ASTEROID" ||
          strIncludes ship.nav.waypointSymbol "ENGINEERED_ASTEROID")) = true
      · rw [if_pos h4]
        refine queueBound_append hq ?_
        intro s hs
        simp only [List.mem_cons, List.not_mem_nil, or_false] at hs
        rcases hs with rfl | rfl <;> simp
      · rw [if_neg h4]
        have hmid : QueueBound (if ship.nav.status ≠ NavStatus.IN_ORBIT then
            q ++ [{ type := .orbit, retries := 0, maxRetries := 3 }] else q) := by
          by_cases h5 : ship.nav.status ≠ NavStatus.IN_ORBIT
          · rw [if_pos h5]
            refine queueBound_append hq ?_
            intro s hs
            simp only [List.mem_cons, List.not_mem_nil, or_false] at hs
            rcases hs with rfl
            simp
          · rw [if_neg h5]
            exact hq
        have hsurv : QueueBound (if ship.mounts.any
            (fun m => strIncludes m.symbol "SURVEYOR") then
            (if ship.nav.status ≠ NavStatus.IN_ORBIT then
              q ++ [{ type := .orbit, retries := 0, maxRetries := 3 }] else q) ++
              [{ type := .survey, retries := 0, maxRetries := 2 }]
            else
            (if ship.nav.status ≠ NavStatus.IN_ORBIT then
              q ++ [{ type := .orbit, retries := 0, maxRetries := 3 }] else q)) := by
          by_cases h6 : ship.mounts.any (fun m => strIncludes m.symbol "SURVEYOR")
          · rw [if_pos h6]
            refine queueBound_append hmid ?_
            intro s hs
            simp only [List.mem_cons, List.not_mem_nil, or_false] at hs
            rcases hs with rfl
            simp
          · rw [if_neg h6]
            exact hmid
        refine queueBound_append hsurv ?_
        intro s hs
        simp only [List.mem_cons, List.not_mem_nil, or_false] at hs
        rcases hs with rfl
        simp

theorem queueBound_planTrading (ship : Ship) (state : AutomationState)
    (q : List ActionStep) (hq : QueueBound q) :
    QueueBound (planTradingActions ship state q).2 := by
  simp only [planTradingActions]
  by_cases h : 0 < ship.cargo.units
  · rw [if_pos h]
    exact queueBound_planSell ship _ q hq
  · rw [if_neg h]
    exact hq

theorem queueBound_contractFold (ship : Ship) (activeContract : Contract) :
    ∀ (ds : List ContractDeliverGood) (acc : AutomationState × List ActionStep),
      QueueBound acc.2 →
      QueueBound (ds.foldl (contractDeliverFold ship activeContract) acc).2 := by
  intro ds
  induction ds with
  | nil => intro acc h; exact h
  | cons d rest ih =>
    intro acc h
    rw [List.foldl_cons]
    refine ih _ ?_
    simp only [contractDeliverFold]
    by_cases h1 : d.unitsFulfilled < d.unitsRequired
    · rw [if_pos h1]
      by_cases h2 : 0 < (match ship.cargo.inventory.find?
          (fun it => it.symbol = d.tradeSymbol) with
          | some it => it.units
          | none => 0)
      · rw [if_pos h2]
        refine queueBound_append h ?_
        intro s hs
        simp only [List.mem_cons, List.not_mem_nil, or_false] at hs
        rcases hs with rfl | rfl | rfl <;> simp
      · rw [if_neg h2]
        exact h
    · rw [if_neg h1]
      exact h

theorem queueBound_planContract (contractsResult : Option (List Contract))
    (ship : Ship) (state : AutomationState) (q : List ActionStep)
    (hq : QueueBound q) :
    QueueBound (planContractActions contractsResult ship state q).2 := by
  cases contractsResult with
  | none => simp only [planContractActions]; exact hq
  | some contracts =>
    simp only [planContractActions]
    cases hfind : contracts.find? (fun c => c.accepted && !c.fulfilled) with
    | none =>
      simp only [hfind]
      exact hq
    | some activeContract =>
      simp only [hfind]
      exact queueBound_contractFold ship activeContract _ _ hq

theorem queueBound_planNext (contractsResult : Option (List Contract))
    (ship : Ship) (state : AutomationState) (q : List ActionStep)
    (hq : QueueBound q) :
    QueueBound (planNextActions contractsResult ship state q).2 := by
  unfold planNextActions
  cases state.behavior with
  | mining => exact queueBound_planMining ship state q hq
  | trading => exact queueBound_planTrading ship state q hq
  | contract => exact queueBound_planContract contractsResult ship state q hq
  | idle => exact hq

theorem queueBound_runQueueStep (gw : GatewayCall → Bool) (ship : Ship)
    (now : Nat) (state : AutomationState) (q : List ActionStep)
    (hq : QueueBound q) :
    QueueBound (runQueueStep gw ship now state q).2 := by
  cases q with
  | nil =>
    intro s hs
    simp [runQueueStep] at hs
  | cons a rest =>
    have hrest : QueueBound rest := fun s hs => hq s (List.mem_cons_of_mem _ hs)
    by_cases hf : (executeAction gw ship a).1 = true
    · simp only [runQueueStep, hf, if_true]
      exact hrest
    · simp only [runQueueStep, hf, Bool.false_eq_true, if_false]
      by_cases hm : a.maxRetries ≤ a.retries + 1
      · rw [if_pos hm]
        exact hrest
      · rw [if_neg hm]
        intro s hs
        rcases List.mem_cons.mp hs with rfl | h
        · simpa using Nat.le_of_lt (Nat.lt_of_not_le hm)
        · exact hrest s h

/-- The body of `processShipAutomation` after the cooldown early-return
is the queue-execution block followed by planning exactly when the queue
it left behind is empty. -/
theorem processAfterCooldown_eq (gw : GatewayCall → Bool)
    (contractsResult : Option (List Contract)) (ship : Ship) (now : Nat)
    (state : AutomationState) (queue : List ActionStep) :
    processShipAutomation.processAfterCooldown gw contractsResult ship now state queue =
      (let r := runQueueStep gw ship now state queue
       if r.2.isEmpty then planNextActions contractsResult ship r.1 r.2 else r) := rfl

/-- Off cooldown, `processShipAutomation` is exactly that composition. -/
theorem processShipAutomation_off_cooldown (gw : GatewayCall → Bool)
    (contractsResult : Option (List Contract)) (ship : Ship) (now : Nat)
    (state : AutomationState) (queue : List ActionStep)
    (hcd : onCooldown ship = false) :
    processShipAutomation gw contractsResult ship now state queue =
      (let r := runQueueStep gw ship now state queue
       if r.2.isEmpty then planNextActions contractsResult ship r.1 r.2 else r) := by
  rw [← processAfterCooldown_eq gw contractsResult ship now state queue]
  unfold processShipAutomation
  cases h : ship.cooldown with
  | none => rfl
  | some c =>
    unfold onCooldown at hcd
    rw [h] at hcd
    simp only [decide_eq_false_iff_not] at hcd
    simp only []
    rw [if_neg hcd]

theorem queueBound_processAfterCooldown (gw : GatewayCall → Bool)
    (contractsResult : Option (List Contract)) (ship : Ship) (now : Nat)
    (state : AutomationState) (q : List ActionStep) (hq : QueueBound q) :
    QueueBound (processShipAutomation.processAfterCooldown gw contractsResult
      ship now state q).2 := by
  rw [processAfterCooldown_eq]
  have hr := queueBound_runQueueStep gw ship now state q hq
  by_cases he : (runQueueStep gw ship now state q).2.isEmpty
  · simp only [he, if_true]
    exact queueBound_planNext contractsResult ship _ _ hr
  · simp only [he, Bool.false_eq_true, if_false]
    exact hr

/-- C10: the retry-budget invariant — every step still in the queue has
`retries ≤ maxRetries` — is preserved by a whole per-ship tick (execution
of the head step, drop on exhaustion, and any replanning). -/
theorem c10_retry_never_exceeds_budget (gw : GatewayCall → Bool)
    (contractsResult : Option (List Contract)) (ship : Ship) (now : Nat)
    (state : AutomationState) (q : List ActionStep) (hq : QueueBound q) :
    QueueBound (processShipAutomation gw contractsResult ship now state q).2 := by
  unfold processShipAutomation
  cases h : ship.cooldown with
  | none =>
    exact queueBound_processAfterCooldown gw contractsResult ship now state q hq
  | some c =>
    by_cases hrem : 0 < c.remainingSeconds
    · simp only []
      rw [if_pos hrem]
      exact hq
    · simp only []
      rw [if_neg hrem]
      exact queueBound_processAfterCooldown gw contractsResult ship now state q hq

/-- Witness for C10: a queue holding one fresh `extract` step satisfies
the invariant, and still does after a tick that processes it against a
docked ship (the step fails and is retried). -/
theorem c10_retry_never_exceeds_budget_witness :
    QueueBound [stepOf ActionType.extract] ∧
    QueueBound (processShipAutomation gwOk none shipDocked 3 stateMining
      [stepOf ActionType.extract]).2 := by
  have h0 : QueueBound [stepOf ActionType.extract] := by
    intro s hs
    simp only [List.mem_cons, List.not_mem_nil, or_false] at hs
    subst hs
    decide
  exact ⟨h0, c10_retry_never_exceeds_budget gwOk none shipDocked 3 stateMining
    [stepOf ActionType.extract] h0⟩

/-! ### Branch characterizations of the mining planner -/

theorem planMining_refuel_branch (ship : Ship) (state : AutomationState)
    (q : List ActionStep)
    (hmax : ¬(state.policy.mining.stopConditions.maxCargo = true ∧
      (ship.cargo.capacity : ℚ) * (9 / 10) ≤ (ship.cargo.units : ℚ)))
    (hlow : state.policy.mining.stopConditions.lowFuel = true ∧
      ship.fuel.capacity ≠ 0 ∧
      (ship.fuel.current : ℚ) / (ship.fuel.capacity : ℚ) * 100 <
        state.policy.mining.minFuelPercent) :
    planMiningActions ship state q =
      ({ state with currentTask := "Low fuel, need to refuel" },
        q ++
          [{ type := .dock, retries := 0, maxRetries := 3 },
           { type := .refuel, retries := 0, maxRetries := 3 },
           { type := .orbit, retries := 0, maxRetries := 3 }]) := by
  simp only [planMiningActions]
  rw [if_neg hmax, if_pos hlow]

theorem planMining_navigate_branch (ship : Ship) (state : AutomationState)
    (q : List ActionStep)
    (hmax : ¬(state.policy.mining.stopConditions.maxCargo = true ∧
      (ship.cargo.capacity : ℚ) * (9 / 10) ≤ (ship.cargo.units : ℚ)))
    (hlow : ¬(state.policy.mining.stopConditions.lowFuel = true ∧
      ship.fuel.capacity ≠ 0 ∧
      (ship.fuel.current : ℚ) / (ship.fuel.capacity : ℚ) * 100 <
        state.policy.mining.minFuelPercent))
    (hast : (!(strIncludes ship.nav.waypointSymbol "ASTEROID" ||
      strIncludes ship.nav.waypointSymbol "ENGINEERED_ASTEROID")) = true) :
    planMiningActions ship state q =
      ({ state with currentTask := "Navigating to mining location" },
        q ++
          [{ type := .navigate,
             target := some (ship.nav.systemSymbol ++ "-ASTEROID-1"),
             retries := 0, maxRetries := 3 },
           { type := .orbit, retries := 0, maxRetries := 3 }]) := by
  simp only [planMiningActions]
  rw [if_neg hmax, if_neg hlow, if_pos hast]

theorem planMining_mine_branch (ship : Ship) (state : AutomationState)
    (q : List ActionStep)
    (hmax : ¬(state.policy.mining.stopConditions.maxCargo = true ∧
      (ship.cargo.capacity : ℚ) * (9 / 10) ≤ (ship.cargo.units : ℚ)))
    (hlow : ¬(state.policy.mining.stopConditions.lowFuel = true ∧
      ship.fuel.capacity ≠ 0 ∧
      (ship.fuel.current : ℚ) / (ship.fuel.capacity : ℚ) * 100 <
        state.policy.mining.minFuelPercent))
    (hast : ¬((!(strIncludes ship.nav.waypointSymbol "ASTEROID" ||
      strIncludes ship.nav.waypointSymbol "ENGINEERED_ASTEROID")) = true)) :
    planMiningActions ship state q =
      ({ state with
          currentTask := "Mining resources"
          progress := (ship.cargo.units : ℚ) / (ship.cargo.capacity : ℚ) * 100 },
        (if ship.mounts.any (fun m => strIncludes m.symbol "SURVEYOR") then
          (if ship.nav.status ≠ NavStatus.IN_ORBIT then
            q ++ [{ type := .orbit, retries := 0, maxRetries := 3 }] else q) ++
            [{ type := .survey, retries := 0, maxRetries := 2 }]
        else
          (if ship.nav.status ≠ NavStatus.IN_ORBIT then
            q ++ [{ type := .orbit, retries := 0, maxRetries := 3 }] else q)) ++
          [{ type := .extract, retries := 0, maxRetries := 3 }]) := by
  simp only [planMiningActions]
  rw [if_neg hmax, if_neg hlow, if_neg hast]

theorem planMining_sellfull_branch (ship : Ship) (state : AutomationState)
    (q : List ActionStep)
    (hmax : state.policy.mining.stopConditions.maxCargo = true ∧
      (ship.cargo.capacity : ℚ) * (9 / 10) ≤ (ship.cargo.units : ℚ))
    (hauto : state.policy.mining.autoSellWhenFull = true) :
    planMiningActions ship state q =
      planSellActions ship
        { state with currentTask := "Cargo full, finding market to sell" } q := by
  simp only [planMiningActions]
  rw [if_pos hmax, if_pos hauto]

/-- C2 fails on the code: one mining-plan invocation for a ship at a
non-asteroid waypoint (full fuel, empty cargo, default policy) enqueues
only `navigate` and `orbit`; no `extract` step is enqueued that cycle. -/
theorem c2_counterexample_no_extract_first_cycle :
    (planMiningActions shipA stateMining []).2.map ActionStep.type =
      [ActionType.navigate, ActionType.orbit] ∧
    ActionType.extract ∉
      (planMiningActions shipA stateMining []).2.map ActionStep.type := by
  rw [planMining_navigate_branch shipA stateMining []
    (by norm_num [stateMining, defaultPolicy, shipA])
    (by norm_num [stateMining, defaultPolicy, shipA])
    (by decide)]
  exact ⟨rfl, by decide⟩

/-- C2 amended: with no stop condition triggered, a plan cycle at a
non-asteroid waypoint enqueues exactly `[navigate(asteroid), orbit]`;
the `extract` step — preceded by `survey` exactly when the ship carries
a SURVEYOR mount — is enqueued by a cycle that finds the ship at the
asteroid and in orbit. -/
theorem c2_mining_plan_two_cycles :
    (∀ (ship : Ship) (state : AutomationState) (q : List ActionStep),
      ¬(state.policy.mining.stopConditions.maxCargo = true ∧
        (ship.cargo.capacity : ℚ) * (9 / 10) ≤ (ship.cargo.units : ℚ)) →
      ¬(state.policy.mining.stopConditions.lowFuel = true ∧
        ship.fuel.capacity ≠ 0 ∧
        (ship.fuel.current : ℚ) / (ship.fuel.capacity : ℚ) * 100 <
          state.policy.mining.minFuelPercent) →
      (!(strIncludes ship.nav.waypointSymbol "ASTEROID" ||
        strIncludes ship.nav.waypointSymbol "ENGINEERED_ASTEROID")) = true →
      planMiningActions ship state q =
        ({ state with currentTask := "Navigating to mining location" },
          q ++
            [{ type := .navigate,
               target := some (ship.nav.systemSymbol ++ "-ASTEROID-1"),
               retries := 0, maxRetries := 3 },
             { type := .orbit, retries := 0, maxRetries := 3 }])) ∧
    (∀ (ship : Ship) (state : AutomationState) (q : List ActionStep),
      ¬(state.policy.mining.stopConditions.maxCargo = true ∧
        (ship.cargo.capacity : ℚ) * (9 / 10) ≤ (ship.cargo.units : ℚ)) →
      ¬(state.policy.mining.stopConditions.lowFuel = true ∧
        ship.fuel.capacity ≠ 0 ∧
        (ship.fuel.current : ℚ) / (ship.fuel.capacity : ℚ) * 100 <
          state.policy.mining.minFuelPercent) →
      ¬((!(strIncludes ship.nav.waypointSymbol "ASTEROID" ||
        strIncludes ship.nav.waypointSymbol "ENGINEERED_ASTEROID")) = true) →
      ship.nav.status = NavStatus.IN_ORBIT →
      (planMiningActions ship state q).2 =
        q ++
          (if ship.mounts.any (fun m => strIncludes m.symbol "SURVEYOR") then
            [{ type := .survey, retries := 0, maxRetries := 2 }]
          else []) ++
          [{ type := .extract, retries := 0, maxRetries := 3 }]) := by
  constructor
  · intro ship state q hmax hlow hast
    exact planMining_navigate_branch ship state q hmax hlow hast
  · intro ship state q hmax hlow hast hstat
    rw [planMining_mine_branch ship state q hmax hlow hast]
    have hno : ¬ship.nav.status ≠ NavStatus.IN_ORBIT := by simp [hstat]
    by_cases hm : ship.mounts.any (fun m => strIncludes m.symbol "SURVEYOR") = true
    · simp [hm, hno]
    · simp [hm, hno]

/-- Witness for C2 amended: Scenario A's ship gets `[navigate, orbit]`
on the first cycle; at the asteroid (no surveyor mount) the next cycle
appends exactly `[extract]`. -/
theorem c2_mining_plan_two_cycles_witness :
    planMiningActions shipA stateMining [] =
      ({ stateMining with currentTask := "Navigating to mining location" },
        [{ type := .navigate, target := some (shipA.nav.systemSymbol ++ "-ASTEROID-1"),
           retries := 0, maxRetries := 3 },
         { type := .orbit, retries := 0, maxRetries := 3 }]) ∧
    (planMiningActions shipAtAsteroid stateMining []).2 =
      [{ type := .extract, retries := 0, maxRetries := 3 }] := by
  constructor
  · have h := c2_mining_plan_two_cycles.1 shipA stateMining []
      (by norm_num [stateMining, defaultPolicy, shipA])
      (by norm_num [stateMining, defaultPolicy, shipA])
      (by decide)
    simpa using h
  · have h := c2_mining_plan_two_cycles.2 shipAtAsteroid stateMining []
      (by norm_num [stateMining, defaultPolicy, shipAtAsteroid, shipA])
      (by norm_num [stateMining, defaultPolicy, shipAtAsteroid, shipA])
      (by decide) (by decide)
    simpa using h

/-- Scenario-A ship with fuel exactly at the default 10% threshold. -/
def shipFuelAtThreshold : Ship :=
  { shipA with fuel := { current := 10, capacity := 100 } }

/-- Scenario-C ship: fuel 8/100, strictly below the 10% threshold. -/
def shipLowFuel : Ship :=
  { shipA with fuel := { current := 8, capacity := 100 } }

/-- Low fuel and full cargo at once. -/
def shipFullCargoLowFuel : Ship :=
  { shipA with
      fuel := { current := 8, capacity := 100 }
      cargo := { capacity := 40, units := 40,
                 inventory := [{ symbol := "IRON_ORE", units := 40 }] } }

/-- C6 fails on the code twice over: the fuel test is a strict `<`, so a
ship at exactly the threshold (10/100 with `minFuelPercent = 10`) mines
on instead of refuelling; and the cargo-full branch runs first, so a low
-fuel ship with full cargo gets a sell plan, not `{dock, refuel, orbit}`. -/
theorem c6_counterexample_threshold_and_cargo :
    (planMiningActions shipFuelAtThreshold stateMining []).2.map ActionStep.type =
      [ActionType.navigate, ActionType.orbit] ∧
    (planMiningActions shipFullCargoLowFuel stateMining []).2.map ActionStep.type =
      [ActionType.navigate, ActionType.dock, ActionType.sell] := by
  constructor
  · rw [planMining_navigate_branch shipFuelAtThreshold stateMining []
      (by norm_num [stateMining, defaultPolicy, shipFuelAtThreshold, shipA])
      (by norm_num [stateMining, defaultPolicy, shipFuelAtThreshold, shipA])
      (by decide)]
    rfl
  · rw [planMining_sellfull_branch shipFullCargoLowFuel stateMining []
      (by norm_num [stateMining, defaultPolicy, shipFullCargoLowFuel, shipA])
      (by norm_num [stateMining, defaultPolicy])]
    simp only [planSellActions]
    rw [if_neg (by norm_num [shipFullCargoLowFuel, shipA])]
    rfl

/-- C6 amended: when the cargo-full branch is not taken, the low-fuel
stop is enabled, and the fuel fraction is strictly below the threshold,
the plan cycle enqueues exactly `{dock, refuel, orbit}` and nothing
else. -/
theorem c6_low_fuel_strict_refuel_plan (ship : Ship) (state : AutomationState)
    (q : List ActionStep)
    (hmax : ¬(state.policy.mining.stopConditions.maxCargo = true ∧
      (ship.cargo.capacity : ℚ) * (9 / 10) ≤ (ship.cargo.units : ℚ)))
    (hlowOn : state.policy.mining.stopConditions.lowFuel = true)
    (hcap : ship.fuel.capacity ≠ 0)
    (hfrac : (ship.fuel.current : ℚ) / (ship.fuel.capacity : ℚ) * 100 <
      state.policy.mining.minFuelPercent) :
    planMiningActions ship state q =
      ({ state with currentTask := "Low fuel, need to refuel" },
        q ++
          [{ type := .dock, retries := 0, maxRetries := 3 },
           { type := .refuel, retries := 0, maxRetries := 3 },
           { type := .orbit, retries := 0, maxRetries := 3 }]) :=
  planMining_refuel_branch ship state q hmax ⟨hlowOn, hcap, hfrac⟩

/-- Witness for C6 amended: Scenario C's ship (8% fuel, empty cargo,
default policy) gets exactly the refuel plan. -/
theorem c6_low_fuel_strict_refuel_plan_witness :
    planMiningActions shipLowFuel stateMining [] =
      ({ stateMining with currentTask := "Low fuel, need to refuel" },
        [{ type := .dock, retries := 0, maxRetries := 3 },
         { type := .refuel, retries := 0, maxRetries := 3 },
         { type := .orbit, retries := 0, maxRetries := 3 }]) := by
  have h := c6_low_fuel_strict_refuel_plan shipLowFuel stateMining []
    (by norm_num [stateMining, defaultPolicy, shipLowFuel, shipA])
    (by norm_num [stateMining, defaultPolicy])
    (by norm_num [shipLowFuel, shipA])
    (by norm_num [stateMining, defaultPolicy, shipLowFuel, shipA])
  simpa using h

/-- C7 fails on the code: with the one-step queue `[orbit]` (non-empty
at the start of the tick) and the ship already in orbit at an asteroid,
the step is executed, the queue empties, and the planner runs in the
same tick, leaving a fresh `extract` step in the queue. -/
theorem c7_counterexample_plan_in_execution_tick :
    (runQueueStep gwOk shipAtAsteroid 5 stateMining [stepOf ActionType.orbit]).2 =
      [] ∧
    (processShipAutomation gwOk none shipAtAsteroid 5 stateMining
        [stepOf ActionType.orbit]).2.map ActionStep.type = [ActionType.extract] := by
  have hr : runQueueStep gwOk shipAtAsteroid 5 stateMining
      [stepOf ActionType.orbit] = ({ stateMining with lastAction := 5 }, []) := by
    decide
  refine ⟨by rw [hr], ?_⟩
  rw [processShipAutomation_off_cooldown gwOk none shipAtAsteroid 5 stateMining
    [stepOf ActionType.orbit] (by decide)]
  simp only [hr, List.isEmpty_nil, if_true]
  have hplan : planNextActions none shipAtAsteroid
      { stateMining with lastAction := 5 } [] =
      planMiningActions shipAtAsteroid { stateMining with lastAction := 5 } [] := rfl
  rw [hplan, planMining_mine_branch shipAtAsteroid
    { stateMining with lastAction := 5 } []
    (by norm_num [stateMining, defaultPolicy, shipAtAsteroid, shipA])
    (by norm_num [stateMining, defaultPolicy, shipAtAsteroid, shipA])
    (by decide)]
  decide

/-- C7 amended: off cooldown, a tick first runs the queue-execution
block and then invokes the planner exactly when the queue left behind is
empty — including in the same tick as an execution that emptied it. -/
theorem c7_plan_exactly_when_post_execution_queue_empty
    (gw : GatewayCall → Bool) (contractsResult : Option (List Contract))
    (ship : Ship) (now : Nat) (state : AutomationState) (q : List ActionStep)
    (hcd : onCooldown ship = false) :
    processShipAutomation gw contractsResult ship now state q =
      (if (runQueueStep gw ship now state q).2.isEmpty then
        planNextActions contractsResult ship (runQueueStep gw ship now state q).1
          (runQueueStep gw ship now state q).2
      else runQueueStep gw ship now state q) := by
  rw [processShipAutomation_off_cooldown gw contractsResult ship now state q hcd]

/-- Witness for C7 amended, at the counterexample's inputs. -/
theorem c7_plan_exactly_when_post_execution_queue_empty_witness :
    processShipAutomation gwOk none shipAtAsteroid 5 stateMining
        [stepOf ActionType.orbit] =
      (if (runQueueStep gwOk shipAtAsteroid 5 stateMining
          [stepOf ActionType.orbit]).2.isEmpty then
        planNextActions none shipAtAsteroid
          (runQueueStep gwOk shipAtAsteroid 5 stateMining [stepOf ActionType.orbit]).1
          (runQueueStep gwOk shipAtAsteroid 5 stateMining [stepOf ActionType.orbit]).2
      else runQueueStep gwOk shipAtAsteroid 5 stateMining [stepOf ActionType.orbit]) :=
  c7_plan_exactly_when_post_execution_queue_empty gwOk none shipAtAsteroid 5
    stateMining [stepOf ActionType.orbit] (by decide)

/-! ## Orchestrator fixtures -/

def orchStopped : Orchestrator :=
  { automationStates := [("SHIP-1", { stateMining with status := RunStatus.stopped })]
    actionQueues := []
    isRunning := false }

def orchRunning : Orchestrator :=
  { automationStates := [("SHIP-1", stateMining)]
    actionQueues := [("SHIP-1", [stepOf ActionType.extract])]
    isRunning := true }

def orchPausedFullCargo : Orchestrator :=
  { automationStates :=
      [("SHIP-1", { stateMining with
          status := RunStatus.paused
          currentTask := "Cargo full, automation paused" })]
    actionQueues := []
    isRunning := true }

/-- C5 fails on the code: `pauseAutomation` moves a `stopped` ship to
`paused` and `resumeAutomation` then moves it to `running`, so a
stopped ship returns to `running` with no new `startAutomation`. -/
theorem c5_counterexample_stopped_revived :
    ((orchStopped.automationStates.lookup "SHIP-1").map AutomationState.status =
      some RunStatus.stopped) ∧
    (((resumeAutomation (pauseAutomation orchStopped "SHIP-1")
        "SHIP-1").automationStates.lookup "SHIP-1").map AutomationState.status =
      some RunStatus.running) := by
  constructor <;> rfl

/-- C5 amended: `pauseAutomation` sets any existing state — whatever its
status, including `stopped` and `error` — to `paused`; `stopAutomation`
sets any existing state to `stopped`; `resumeAutomation` moves `paused`
to `running` and is the identity otherwise.  Hence pause-then-resume
revives stopped and errored ships. -/
theorem c5_run_status_transitions (o : Orchestrator) (s : String)
    (st : AutomationState) (h : o.automationStates.lookup s = some st) :
    ((pauseAutomation o s).automationStates.lookup s =
      some { st with status := RunStatus.paused, currentTask := "Paused" }) ∧
    ((stopAutomation o s).automationStates.lookup s =
      some { st with status := RunStatus.stopped, currentTask := "Stopped" }) ∧
    (st.status = RunStatus.paused →
      (resumeAutomation o s).automationStates.lookup s =
        some { st with status := RunStatus.running, currentTask := "Resuming" }) ∧
    (st.status ≠ RunStatus.paused → resumeAutomation o s = o) := by
  refine ⟨?_, ?_, fun hp => ?_, fun hnp => ?_⟩
  · simp only [pauseAutomation, h]
    exact lookup_mapSet o.automationStates s _
  · simp only [stopAutomation, h]
    exact lookup_mapSet o.automationStates s _
  · simp only [resumeAutomation, h, if_pos hp]
    exact lookup_mapSet o.automationStates s _
  · simp only [resumeAutomation, h, if_neg hnp]

/-- Witness for C5 amended: the stopped fixture is paused by
`pauseAutomation`, and `resumeAutomation` leaves the running fixture
untouched. -/
theorem c5_run_status_transitions_witness :
    ((pauseAutomation orchStopped "SHIP-1").automationStates.lookup "SHIP-1" =
      some { { stateMining with status := RunStatus.stopped } with
          status := RunStatus.paused, currentTask := "Paused" }) ∧
    resumeAutomation orchRunning "SHIP-1" = orchRunning := by
  constructor
  · exact (c5_run_status_transitions orchStopped "SHIP-1"
      { stateMining with status := RunStatus.stopped } rfl).1
  · exact (c5_run_status_transitions orchRunning "SHIP-1" stateMining rfl).2.2.2
      (by decide)

/-- C9 fails on the code: pausing an already-paused ship overwrites
`currentTask` with "Paused" (here clobbering "Cargo full, automation
paused"), so the state is not left entirely unchanged. -/
theorem c9_counterexample_pause_overwrites_task :
    ((orchPausedFullCargo.automationStates.lookup "SHIP-1").map
        AutomationState.status = some RunStatus.paused) ∧
    ((orchPausedFullCargo.automationStates.lookup "SHIP-1").map
        AutomationState.currentTask = some "Cargo full, automation paused") ∧
    (((pauseAutomation orchPausedFullCargo "SHIP-1").automationStates.lookup
        "SHIP-1").map AutomationState.currentTask = some "Paused") := by
  refine ⟨rfl, rfl, rfl⟩

/-- C9 amended: `resumeAutomation` on a running ship is a complete
no-op; `pauseAutomation` on an already-paused ship keeps the status but
rewrites `currentTask` to "Paused" — a no-op only when the task already
was "Paused". -/
theorem c9_pause_resume_idempotence (o : Orchestrator) (s : String)
    (st : AutomationState) (h : o.automationStates.lookup s = some st) :
    (st.status = RunStatus.running → resumeAutomation o s = o) ∧
    (st.status = RunStatus.paused →
      (pauseAutomation o s).automationStates.lookup s =
        some { st with currentTask := "Paused" }) := by
  refine ⟨fun hr => ?_, fun hp => ?_⟩
  · simp only [resumeAutomation, h]
    rw [if_neg (by rw [hr]; intro hcontra; exact RunStatus.noConfusion hcontra)]
  · simp only [pauseAutomation, h]
    have he : ({ st with status := RunStatus.paused, currentTask := "Paused" } :
        AutomationState) = { st with currentTask := "Paused" } := by
      rw [← hp]
    rw [← he]
    exact lookup_mapSet o.automationStates s _

/-- Witness for C9 amended at the two fixtures. -/
theorem c9_pause_resume_idempotence_witness :
    resumeAutomation orchRunning "SHIP-1" = orchRunning ∧
    ((pauseAutomation orchPausedFullCargo "SHIP-1").automationStates.lookup
        "SHIP-1" =
      some { { stateMining with
          status := RunStatus.paused
          currentTask := "Cargo full, automation paused" } with
        currentTask := "Paused" }) := by
  constructor
  · exact (c9_pause_resume_idempotence orchRunning "SHIP-1" stateMining rfl).1 rfl
  · exact (c9_pause_resume_idempotence orchPausedFullCargo "SHIP-1"
      { stateMining with
          status := RunStatus.paused
          currentTask := "Cargo full, automation paused" } rfl).2 rfl

/-- Re-keying the stored array by `shipSymbol` restores the state map
when every entry was keyed by its state's own ship symbol. -/
theorem rekey_map_snd (m : List (String × AutomationState))
    (h : ∀ p ∈ m, p.1 = p.2.shipSymbol) :
    (m.map Prod.snd).map (fun s => (s.shipSymbol, s)) = m := by
  induction m with
  | nil => rfl
  | cons p t ih =>
    simp only [List.map_cons]
    rw [ih (fun q hq => h q (List.mem_cons_of_mem _ hq))]
    have hk := h p (List.mem_cons_self _ _)
    rw [← hk]

/-- C1 fails on the code: `saveStates` writes only the automation
states; the action queues are not persisted, so a non-empty queue comes
back empty after `loadStates`. -/
theorem c1_counterexample_queue_not_persisted :
    orchRunning.queueOf "SHIP-1" = [stepOf ActionType.extract] ∧
    (loadStates (saveStates orchRunning)).queueOf "SHIP-1" = [] := by
  constructor <;> rfl

/-- C1 amended: `loadStates ∘ saveStates` restores the state map
exactly (every record field, `lastAction` included) whenever each entry
is keyed by its own ship symbol, but restores no queue: after a reload
every ship's queue is empty. -/
theorem c1_roundtrip_states_only (o : Orchestrator)
    (h : ∀ p ∈ o.automationStates, p.1 = p.2.shipSymbol) :
    (loadStates (saveStates o)).automationStates = o.automationStates ∧
    (loadStates (saveStates o)).actionQueues = [] := by
  refine ⟨?_, rfl⟩
  show (o.automationStates.map Prod.snd).map (fun s => (s.shipSymbol, s)) =
    o.automationStates
  exact rekey_map_snd o.automationStates h

/-- Witness for C1 amended at the running fixture. -/
theorem c1_roundtrip_states_only_witness :
    (loadStates (saveStates orchRunning)).automationStates =
      orchRunning.automationStates ∧
    (loadStates (saveStates orchRunning)).actionQueues = [] :=
  c1_roundtrip_states_only orchRunning (by decide)

end SpaceTraders
